import Mathlib

/-!
Verification of the real-time audio streaming core of the ProfAI websocket
server against its natural-language specification.

The development shallowly embeds the relevant Python source:

* services/sarvam_service.py : the text chunkers
  (split_text_fast, split_text_for_immediate_streaming) and the streaming
  TTS generator with its whole-text re-synthesis fallback
  (stream_audio_generation);
* services/audio_service.py : AudioService.stream_audio_from_text, the
  provider-composition layer;
* websocket_server.py : the per-connection handlers
  (handle_audio_only, handle_chat_with_audio, handle_start_class,
  handle_transcribe_audio), the message loop (process_messages), the metrics
  counters and is_normal_closure;
* utils/connection_monitor.py : is_normal_closure.

Text is modelled as List Char, audio byte strings as List Nat.  The network
is modelled by a send budget: a send succeeds while the budget is positive
and raises ConnectionClosed once it is exhausted (the websocket library
surfaces client disconnection to this code only as an exception from send).
-/

/-! ## Python string primitives used by the chunkers -/

/-- Whitespace test matching Python str.split and str.strip defaults
(space, tab, newline, carriage return, vertical tab, form feed). -/
def pyIsSpace (c : Char) : Bool :=
  c == ' ' || c == '\t' || c == '\n' || c == '\r' || c == '\x0b' || c == '\x0c'

/-- Accumulator worker for pySplit: scans the characters, collecting the
current word reversed in acc and emitting it at each whitespace run. -/
def pySplitAux : List Char → List Char → List (List Char)
  | [], acc => if acc.isEmpty then [] else [acc.reverse]
  | c :: cs, acc =>
    if pyIsSpace c then
      if acc.isEmpty then pySplitAux cs [] else acc.reverse :: pySplitAux cs []
    else
      pySplitAux cs (c :: acc)

/-- Python text.split() with no argument: split on runs of whitespace,
dropping empty pieces. -/
def pySplit (t : List Char) : List (List Char) :=
  pySplitAux t []

/-- Python text.strip(): drop leading and trailing whitespace. -/
def pyStrip (t : List Char) : List Char :=
  (((t.dropWhile pyIsSpace).reverse).dropWhile pyIsSpace).reverse

/-! ## Text chunkers from services/sarvam_service.py -/

/-- Loop body of SarvamService.split_text_fast (sarvam_service.py 684-703):
greedily packs words into chunks of at most maxChunkSize characters,
joining words with single spaces; cur is the chunk under construction. -/
def split_text_fast_aux (maxChunkSize : Nat) :
    List (List Char) → List Char → List (List Char)
  | [], cur => if cur.isEmpty then [] else [pyStrip cur]
  | w :: ws, cur =>
    if cur.length + w.length + 1 ≤ maxChunkSize then
      split_text_fast_aux maxChunkSize ws (if cur.isEmpty then w else cur ++ ' ' :: w)
    else
      if cur.isEmpty then
        split_text_fast_aux maxChunkSize ws w
      else
        pyStrip cur :: split_text_fast_aux maxChunkSize ws w

/-- SarvamService.split_text_fast: word-greedy splitter used for all
non-first chunks of the streaming pipeline. -/
def split_text_fast (t : List Char) (maxChunkSize : Nat) : List (List Char) :=
  split_text_fast_aux maxChunkSize (pySplit t) []

/-- First-chunk builder loop of split_text_for_immediate_streaming
(sarvam_service.py 429-434): keeps adding words while
len(first_chunk + " " + word) fits in maxChunkSize and fewer than 100
words were taken; stops at the first word that does not fit. -/
def first_chunk_aux (maxChunkSize : Nat) :
    List (List Char) → List Char → Nat → List Char
  | [], fc, _ => fc
  | w :: ws, fc, wc =>
    if fc.length + 1 + w.length ≤ maxChunkSize && wc < 100 then
      first_chunk_aux maxChunkSize ws (if fc.isEmpty then w else fc ++ ' ' :: w) (wc + 1)
    else
      fc

/-- SarvamService.split_text_for_immediate_streaming
(sarvam_service.py 416-448): builds a fast first chunk, then slices the
rest of the original text at len(first_chunk) characters, strips it and
hands it to split_text_fast. -/
def split_text_for_immediate_streaming (t : List Char) (maxChunkSize : Nat) :
    List (List Char) :=
  let words := pySplit t
  if words.isEmpty then []
  else
    let fc := first_chunk_aux maxChunkSize words [] 0
    if fc.isEmpty then
      split_text_fast t maxChunkSize
    else
      let remaining := pyStrip (t.drop fc.length)
      if remaining.isEmpty then [pyStrip fc]
      else pyStrip fc :: split_text_fast remaining maxChunkSize

/-! ## Closure classification -/

/-- Exceptions as seen by the closure classifiers: either a
websockets.exceptions.ConnectionClosed carrying its close code (the
library raises the ConnectionClosedOK subclass exactly when the code is
1000 or 1001), or any other exception, of which only the rendered message
text is inspected. -/
inductive PyException where
  | connectionClosed (code : Nat) (msg : List Char)
  | generic (msg : List Char)
deriving DecidableEq

/-- ASCII lowering used to model Python str.lower on the messages the
classifier inspects. -/
def pyToLower (c : Char) : Char :=
  if 'A' ≤ c && c ≤ 'Z' then Char.ofNat (c.toNat + 32) else c

/-- Contiguous-subsequence test (Python substring containment). -/
def containsSeq (pat s : List Char) : Bool :=
  match s with
  | [] => decide (pat = [])
  | _ :: rest => decide (pat = s.take pat.length) || containsSeq pat rest

namespace WsServer

/-- The is_normal_closure of websocket_server.py 32-39: true for
ConnectionClosedOK, true for a ConnectionClosed whose code is 1000 or
1001, false for every other exception.  Since ConnectionClosedOK is
raised by the library exactly for codes 1000 and 1001, the two branches
collapse to the code test. -/
def is_normal_closure : PyException → Bool
  | .connectionClosed code _ => code == 1000 || code == 1001
  | .generic _ => false

end WsServer

namespace ConnMonitor

/-- Lowercase indicator phrases of utils/connection_monitor.py 41-46. -/
def normal_indicators : List (List Char) :=
  [('c' :: 'o' :: 'd' :: 'e' :: ' ' :: '=' :: ' ' :: '1' :: '0' :: '0' :: '0' :: []),
   ('c' :: 'o' :: 'd' :: 'e' :: ' ' :: '=' :: ' ' :: '1' :: '0' :: '0' :: '1' :: []),
   ('g' :: 'o' :: 'i' :: 'n' :: 'g' :: ' ' :: 'a' :: 'w' :: 'a' :: 'y' :: []),
   ('n' :: 'o' :: 'r' :: 'm' :: 'a' :: 'l' :: ' ' :: 'c' :: 'l' :: 'o' :: 's' :: 'u' :: 'r' :: 'e' :: [])]

/-- The is_normal_closure of utils/connection_monitor.py 20-48: a
ConnectionClosed is classified by its code (the ConnectionClosedOK branch
collapses into that test as above); every other exception is lowercased
and matched against the indicator phrases. -/
def is_normal_closure : PyException → Bool
  | .connectionClosed code _ => code == 1000 || code == 1001
  | .generic msg => normal_indicators.any (fun ind => containsSeq ind (msg.map pyToLower))

end ConnMonitor

/-! ## Provider layer: services/sarvam_service.py and services/audio_service.py

An audio byte string is a List Nat.  A run of the Sarvam streaming TTS is
described by the chunks the provider websocket yields before it either
finishes cleanly or raises, together with the audio the whole-text
generate_audio_ultra_fast fallback would produce (that helper catches its
own exceptions and returns an empty buffer on failure, so it is total). -/

/-- Audio byte strings. -/
abbrev ByteStr := List Nat

/-- Observable behaviour of one SarvamService.stream_audio_generation call:
chunks yielded by the provider stream before it ends, whether it ends by
raising, and the audio generate_audio_ultra_fast would return for the whole
text (empty when that fallback fails or times out). -/
structure SarvamRun where
  yielded : List ByteStr
  fails : Bool
  ultraFastAudio : ByteStr
deriving DecidableEq

/-- Observable behaviour of an ElevenLabs text_to_speech_stream call:
chunks yielded before the stream ends, and whether it ends by raising. -/
structure ElevenLabsRun where
  yielded : List ByteStr
  fails : Bool
deriving DecidableEq

/-- SarvamService.stream_audio_generation (sarvam_service.py 138-194): the
generator forwards every provider chunk; if the provider stream raises —
before, between or after chunks — the except block calls
generate_audio_ultra_fast on the WHOLE text and, when that returns a
non-empty buffer, yields it as one additional chunk.  The generator itself
never lets an exception escape. -/
def stream_audio_generation (r : SarvamRun) : List ByteStr :=
  if r.fails then
    r.yielded ++ (if !r.ultraFastAudio.isEmpty then [r.ultraFastAudio] else [])
  else
    r.yielded

/-- AudioService.stream_audio_from_text (audio_service.py 124-184) with the
ElevenLabs adapter optionally configured: the ElevenLabs loop forwards its
non-empty chunks and returns on success; if it raises, control falls
through to the Sarvam generator, whose non-empty chunks are forwarded.
Since the embedded stream_audio_generation never raises, the trailing
except block of stream_audio_from_text is unreachable on this path. -/
def stream_audio_from_text (el : Option ElevenLabsRun) (sv : SarvamRun) :
    List ByteStr :=
  match el with
  | some e =>
    let elChunks := e.yielded.filter (fun c => !c.isEmpty)
    if e.fails then
      elChunks ++ (stream_audio_generation sv).filter (fun c => !c.isEmpty)
    else
      elChunks
  | none => (stream_audio_generation sv).filter (fun c => !c.isEmpty)

/-! ## Outbound events and the network model (websocket_server.py) -/

/-- Outbound events relevant to the claims, as sent by the handlers. -/
inductive Event where
  | pong
  | processing_started
  | text_response (text : String)
  | class_starting
  | course_info
  | teaching_content (contentLength : Nat)
  | audio_generation_started
  | audio_chunk (chunkId : Nat) (size : Nat) (isFirstChunk : Bool) (data : ByteStr)
  | audio_generation_complete (totalChunks : Nat) (totalSize : Nat)
  | transcription_started
  | transcription_complete (text : String)
  | language_set (lang : String)
  | metrics_response (totalRequests : Nat) (errors : Nat)
  | error (msg : String)
deriving DecidableEq

/-- Send budget of a connection: none means the client stays connected;
some k means the next k sends succeed and every later send raises
ConnectionClosed.  This is how the websocket library surfaces client
disconnection to the handler code. -/
def sendStep : Option Nat → Bool × Option Nat
  | none => (true, none)
  | some 0 => (false, some 0)
  | some (n + 1) => (true, some n)

/-- State returned by the chunk-forwarding loop shared by the three
streaming handlers. -/
structure LoopOut where
  events : List Event
  conn : Option Nat
  chunkCount : Nat
  totalSize : Nat
  firstChunkSent : Bool
  disconnected : Bool
deriving DecidableEq

/-- The chunk-forwarding loop of handle_audio_only (websocket_server.py
781-816), identical in handle_chat_with_audio and handle_start_class:
empty provider results are skipped entirely; for a non-empty chunk the
counters are incremented, the chunk is sent with chunk_id = chunk_count
and is_first_chunk = not first_chunk_sent, and first_chunk_sent is set
after the first successful send.  A send on a closed connection raises
ConnectionClosed, which aborts the loop. -/
def handler_chunk_loop :
    List ByteStr → Option Nat → Nat → Nat → Bool → LoopOut
  | [], conn, cnt, tot, first => ⟨[], conn, cnt, tot, first, false⟩
  | c :: rest, conn, cnt, tot, first =>
    if c.isEmpty then
      handler_chunk_loop rest conn cnt tot first
    else
      match sendStep conn with
      | (true, conn') =>
        let r := handler_chunk_loop rest conn' (cnt + 1) (tot + c.length) true
        ⟨Event.audio_chunk (cnt + 1) c.length (!first) c :: r.events,
         r.conn, r.chunkCount, r.totalSize, r.firstChunkSent, r.disconnected⟩
      | (false, conn') => ⟨[], conn', cnt + 1, tot + c.length, first, true⟩

/-- Terminal state of a streaming job, as observable from the handler:
complete when audio_generation_complete was sent, aborted when a
ConnectionClosed ended the job, failed when the generic exception branch
emitted an error for the job, noJob when the handler returned before
starting to stream. -/
inductive JobTerm where
  | complete
  | aborted
  | failed
  | noJob
deriving DecidableEq

/-- The try/except block around the streaming loop, shared verbatim by
handle_audio_only, handle_chat_with_audio and handle_start_class
(websocket_server.py 772-847 and twins): run the loop; on normal loop exit
send audio_generation_complete with the totals; a ConnectionClosed is
caught, increments the error counter only when the closure is abnormal,
and falls through to the metrics update.  The generic except branch is
unreachable because the embedded stream never raises.  Returns the events
sent, the connection state, the job's terminal state and the error-counter
increment. -/
def streaming_try_block (chunks : List ByteStr) (conn : Option Nat)
    (normalClose : Bool) : List Event × Option Nat × JobTerm × Nat :=
  let r := handler_chunk_loop chunks conn 0 0 false
  if r.disconnected then
    (r.events, r.conn, JobTerm.aborted, if normalClose then 0 else 1)
  else
    match sendStep r.conn with
    | (true, conn') =>
      (r.events ++ [Event.audio_generation_complete r.chunkCount r.totalSize],
       conn', JobTerm.complete, 0)
    | (false, conn') =>
      (r.events, conn', JobTerm.aborted, if normalClose then 0 else 1)

/-- Result of one handler invocation: events actually delivered, remaining
send budget, job terminal state, the deltas applied to the session's
conversation_metrics counters, and whether an uncaught exception left the
handler (a ConnectionClosed re-raised while reporting an error). -/
structure HandlerOut where
  events : List Event
  conn : Option Nat
  term : JobTerm
  errorsDelta : Nat
  totalReqDelta : Nat
  chatReqDelta : Nat
  audioReqDelta : Nat
  teachingReqDelta : Nat
  raised : Bool
deriving DecidableEq

/-- ProfAIAgent.handle_audio_only (websocket_server.py 749-867).  When the
text field is missing an error event is sent and nothing else happens; a
ConnectionClosed from that send reaches the outer except branch, which
increments errors and re-raises while reporting.  Otherwise
audio_generation_started is sent, the streaming block runs, and the
metrics update (total_requests, audio_requests) runs regardless of whether
the job completed or was aborted. -/
def handle_audio_only (textPresent : Bool) (chunks : List ByteStr)
    (conn : Option Nat) (normalClose : Bool) : HandlerOut :=
  if !textPresent then
    match sendStep conn with
    | (true, c') => ⟨[Event.error "Text is required"], c', JobTerm.noJob, 0, 0, 0, 0, 0, false⟩
    | (false, c') => ⟨[], c', JobTerm.noJob, 1, 0, 0, 0, 0, true⟩
  else
    match sendStep conn with
    | (false, c') => ⟨[], c', JobTerm.noJob, 1, 0, 0, 0, 0, true⟩
    | (true, c1) =>
      let (evs, c2, term, errs) := streaming_try_block chunks c1 normalClose
      ⟨Event.audio_generation_started :: evs, c2, term, errs, 1, 0, 1, 0, false⟩

/-- Outcome of the awaited chat_service.ask_question call in
handle_chat_with_audio: a resolved answer string, a 30s timeout, or any
other exception. -/
inductive ChatOutcome where
  | answer (text : String)
  | timeout
  | failure (msg : String)
deriving DecidableEq

/-- Handler return when a send raised ConnectionClosed inside the outer try
of handle_chat_with_audio: the dedicated except-ConnectionClosed branch
(websocket_server.py 477-482) increments errors only for an abnormal
closure and returns without re-raising. -/
def chat_guard_fail (evs : List Event) (conn : Option Nat) (normalClose : Bool) :
    HandlerOut :=
  ⟨evs, conn, JobTerm.noJob, if normalClose then 0 else 1, 0, 0, 0, 0, false⟩

/-- ProfAIAgent.handle_chat_with_audio (websocket_server.py 290-493):
service-availability and missing-message guards each send one error event
and return; then processing_started is sent, the chat collaborator is
awaited with a 30s timeout, and on timeout or failure a single error event
is sent and the handler returns WITHOUT starting audio (no
audio_generation_started, no metrics update).  An empty resolved answer is
likewise reported and dropped.  On success text_response and
audio_generation_started are sent, the shared streaming block runs and the
metrics update (total_requests, chat_requests) follows. -/
def handle_chat_with_audio (chatAvailable audioAvailable : Bool)
    (query : Option String) (outcome : ChatOutcome) (chunks : List ByteStr)
    (conn : Option Nat) (normalClose : Bool) : HandlerOut :=
  if !chatAvailable then
    match sendStep conn with
    | (true, c') =>
      ⟨[Event.error "Chat service not available - please refresh connection"],
       c', JobTerm.noJob, 0, 0, 0, 0, 0, false⟩
    | (false, c') => chat_guard_fail [] c' normalClose
  else if !audioAvailable then
    match sendStep conn with
    | (true, c') =>
      ⟨[Event.error "Audio service not available - please refresh connection"],
       c', JobTerm.noJob, 0, 0, 0, 0, 0, false⟩
    | (false, c') => chat_guard_fail [] c' normalClose
  else
    match query with
    | none =>
      match sendStep conn with
      | (true, c') =>
        ⟨[Event.error "Message is required"], c', JobTerm.noJob, 0, 0, 0, 0, 0, false⟩
      | (false, c') => chat_guard_fail [] c' normalClose
    | some _q =>
      match sendStep conn with
      | (false, c') => chat_guard_fail [] c' normalClose
      | (true, c1) =>
        match outcome with
        | ChatOutcome.timeout =>
          -- timeout branch: a guarded error send, then return; a
          -- ConnectionClosed from it is swallowed (websocket_server.py 360-369)
          match sendStep c1 with
          | (true, c2) =>
            ⟨[Event.processing_started,
              Event.error "Response generation timeout - please try again"],
             c2, JobTerm.noJob, 0, 0, 0, 0, 0, false⟩
          | (false, c2) => ⟨[Event.processing_started], c2, JobTerm.noJob, 0, 0, 0, 0, 0, false⟩
        | ChatOutcome.failure m =>
          match sendStep c1 with
          | (true, c2) =>
            ⟨[Event.processing_started, Event.error ("Chat service failed: " ++ m)],
             c2, JobTerm.noJob, 0, 0, 0, 0, 0, false⟩
          | (false, c2) => ⟨[Event.processing_started], c2, JobTerm.noJob, 0, 0, 0, 0, 0, false⟩
        | ChatOutcome.answer t =>
          if t = "" then
            match sendStep c1 with
            | (true, c2) =>
              ⟨[Event.processing_started,
                Event.error "No response generated from chat service"],
               c2, JobTerm.noJob, 0, 0, 0, 0, 0, false⟩
            | (false, c2) => ⟨[Event.processing_started], c2, JobTerm.noJob, 0, 0, 0, 0, 0, false⟩
          else
            match sendStep c1 with
            | (false, c2) =>
              -- text_response raised; the inner generic except tries one more
              -- error send, which fails on the same closed socket, and returns
              ⟨[Event.processing_started], c2, JobTerm.noJob, 0, 0, 0, 0, 0, false⟩
            | (true, c2) =>
              match sendStep c2 with
              | (false, c3) =>
                chat_guard_fail [Event.processing_started, Event.text_response t] c3 normalClose
              | (true, c3) =>
                let (evs, c4, term, errs) := streaming_try_block chunks c3 normalClose
                ⟨Event.processing_started :: Event.text_response t ::
                   Event.audio_generation_started :: evs,
                 c4, term, errs, 1, 1, 0, 0, false⟩

/-- ProfAIAgent.handle_start_class (websocket_server.py 495-747), condensed
to the claims' concerns: class_starting is sent; when the course content
cannot be resolved an error event is sent and the handler returns;
otherwise course_info, teaching_content and audio_generation_started are
sent, the shared streaming block runs, and the metrics update
(total_requests, teaching_requests) follows.  start_class has no dedicated
except-ConnectionClosed branch, so a closure raised outside the streaming
block hits the generic outer except, which increments errors and re-raises
while reporting. -/
def handle_start_class (contentOk : Bool) (contentLength : Nat)
    (chunks : List ByteStr) (conn : Option Nat) (normalClose : Bool) : HandlerOut :=
  match sendStep conn with
  | (false, c') => ⟨[], c', JobTerm.noJob, 1, 0, 0, 0, 0, true⟩
  | (true, c1) =>
    if !contentOk then
      match sendStep c1 with
      | (true, c2) =>
        ⟨[Event.class_starting, Event.error "Course content not found"],
         c2, JobTerm.noJob, 0, 0, 0, 0, 0, false⟩
      | (false, c2) => ⟨[Event.class_starting], c2, JobTerm.noJob, 1, 0, 0, 0, 0, true⟩
    else
      match sendStep c1 with
      | (false, c2) => ⟨[Event.class_starting], c2, JobTerm.noJob, 1, 0, 0, 0, 0, true⟩
      | (true, c2) =>
        match sendStep c2 with
        | (false, c3) =>
          ⟨[Event.class_starting, Event.course_info], c3, JobTerm.noJob, 1, 0, 0, 0, 0, true⟩
        | (true, c3) =>
          match sendStep c3 with
          | (false, c4) =>
            ⟨[Event.class_starting, Event.course_info, Event.teaching_content contentLength],
             c4, JobTerm.noJob, 1, 0, 0, 0, 0, true⟩
          | (true, c4) =>
            let (evs, c5, term, errs) := streaming_try_block chunks c4 normalClose
            ⟨Event.class_starting :: Event.course_info ::
               Event.teaching_content contentLength :: Event.audio_generation_started :: evs,
             c5, term, errs, 1, 0, 0, 1, false⟩

/-- Outcome of the awaited transcription call in handle_transcribe_audio. -/
inductive TransOutcome where
  | ok (text : String)
  | timeout
  | failure (msg : String)
deriving DecidableEq

/-- ProfAIAgent.handle_transcribe_audio (websocket_server.py 993-1059):
missing audio_data is reported and dropped; otherwise
transcription_started is sent and the STT call is awaited with a timeout;
an empty transcript, a timeout or a failure each produce one error event;
success produces transcription_complete.  This handler NEVER touches the
conversation_metrics counters. -/
def handle_transcribe_audio (audioDataPresent : Bool) (outcome : TransOutcome)
    (conn : Option Nat) : HandlerOut :=
  if !audioDataPresent then
    match sendStep conn with
    | (true, c') => ⟨[Event.error "Audio data is required"], c', JobTerm.noJob, 0, 0, 0, 0, 0, false⟩
    | (false, c') => ⟨[], c', JobTerm.noJob, 0, 0, 0, 0, 0, true⟩
  else
    match sendStep conn with
    | (false, c1) => ⟨[], c1, JobTerm.noJob, 0, 0, 0, 0, 0, true⟩
    | (true, c1) =>
      match outcome with
      | TransOutcome.ok t =>
        if t = "" then
          match sendStep c1 with
          | (true, c2) =>
            ⟨[Event.transcription_started, Event.error "Could not transcribe audio"],
             c2, JobTerm.noJob, 0, 0, 0, 0, 0, false⟩
          | (false, c2) => ⟨[Event.transcription_started], c2, JobTerm.noJob, 0, 0, 0, 0, 0, true⟩
        else
          match sendStep c1 with
          | (true, c2) =>
            ⟨[Event.transcription_started, Event.transcription_complete t],
             c2, JobTerm.noJob, 0, 0, 0, 0, 0, false⟩
          | (false, c2) => ⟨[Event.transcription_started], c2, JobTerm.noJob, 0, 0, 0, 0, 0, true⟩
      | TransOutcome.timeout =>
        match sendStep c1 with
        | (true, c2) =>
          ⟨[Event.transcription_started, Event.error "Transcription timeout"],
           c2, JobTerm.noJob, 0, 0, 0, 0, 0, false⟩
        | (false, c2) => ⟨[Event.transcription_started], c2, JobTerm.noJob, 0, 0, 0, 0, 0, true⟩
      | TransOutcome.failure m =>
        match sendStep c1 with
        | (true, c2) =>
          ⟨[Event.transcription_started, Event.error ("Transcription failed: " ++ m)],
           c2, JobTerm.noJob, 0, 0, 0, 0, 0, false⟩
        | (false, c2) => ⟨[Event.transcription_started], c2, JobTerm.noJob, 0, 0, 0, 0, 0, true⟩

/-! ## Event projections used in the statements -/

/-- Chunk ids of the audio_chunk events in a trace, in order. -/
def chunkIds (evs : List Event) : List Nat :=
  evs.filterMap (fun e =>
    match e with
    | Event.audio_chunk i _ _ _ => some i
    | _ => none)

/-- Sizes of the audio_chunk events in a trace, in order. -/
def chunkSizes (evs : List Event) : List Nat :=
  evs.filterMap (fun e =>
    match e with
    | Event.audio_chunk _ s _ _ => some s
    | _ => none)

/-- is_first_chunk flags of the audio_chunk events in a trace, in order. -/
def firstFlags (evs : List Event) : List Bool :=
  evs.filterMap (fun e =>
    match e with
    | Event.audio_chunk _ _ f _ => some f
    | _ => none)

/-- Payloads of the audio_chunk events in a trace, in order. -/
def chunkPayloads (evs : List Event) : List ByteStr :=
  evs.filterMap (fun e =>
    match e with
    | Event.audio_chunk _ _ _ d => some d
    | _ => none)

/-- Test for an audio_chunk event. -/
def isAudioChunkEv : Event → Bool
  | Event.audio_chunk _ _ _ _ => true
  | _ => false

/-- Test for an error event. -/
def isErrorEv : Event → Bool
  | Event.error _ => true
  | _ => false

/-- Test for an audio_generation_complete event. -/
def isCompleteEv : Event → Bool
  | Event.audio_generation_complete _ _ => true
  | _ => false

/-- Test for an audio_generation_started event. -/
def isStartedEv : Event → Bool
  | Event.audio_generation_started => true
  | _ => false

/-- Number of non-empty chunks in a provider result list — the chunks the
handler loop actually forwards. -/
def nonemptyChunkCount (cs : List ByteStr) : Nat :=
  (cs.filter (fun c => !c.isEmpty)).length

/-- Events the handler loop sends over an open connection, starting from
chunk counter cnt and first-flag state first: the closed form of
handler_chunk_loop when no send fails. -/
def chunk_events : List ByteStr → Nat → Bool → List Event
  | [], _, _ => []
  | c :: rest, cnt, first =>
    if c.isEmpty then chunk_events rest cnt first
    else Event.audio_chunk (cnt + 1) c.length (!first) c :: chunk_events rest (cnt + 1) true

/-! ## Session metrics (ProfAIAgent.conversation_metrics) -/

/-- The integer counters of ProfAIAgent.conversation_metrics
(websocket_server.py 187-195) that the claims mention. -/
structure Metrics where
  totalRequests : Nat
  chatRequests : Nat
  audioRequests : Nat
  teachingRequests : Nat
  errors : Nat
deriving DecidableEq

/-- Fresh counters of a new ProfAIAgent. -/
def init_metrics : Metrics := ⟨0, 0, 0, 0, 0⟩

/-- Fold one handler result into the session counters. -/
def apply_deltas (m : Metrics) (h : HandlerOut) : Metrics :=
  ⟨m.totalRequests + h.totalReqDelta, m.chatRequests + h.chatReqDelta,
   m.audioRequests + h.audioReqDelta, m.teachingRequests + h.teachingReqDelta,
   m.errors + h.errorsDelta⟩

/-- One inbound request of a session run, with the outcome of its external
calls; the connection stays open throughout (conn = none). -/
inductive ReqScript where
  | ping
  | set_language (lang : Option String)
  | get_metrics
  | transcribe_audio (audioDataPresent : Bool) (outcome : TransOutcome)
  | chat_with_audio (query : Option String) (outcome : ChatOutcome) (chunks : List ByteStr)
  | audio_only (textPresent : Bool) (chunks : List ByteStr)
  | start_class (contentOk : Bool) (contentLength : Nat) (chunks : List ByteStr)
deriving DecidableEq

/-- Dispatch of one request on an open connection, mirroring the routing of
process_messages (websocket_server.py 234-248): handle_ping sends pong;
handle_set_language validates and sends language_set; handle_get_metrics
(websocket_server.py 1090-1117) sends the CURRENT counters; the remaining
kinds run their embedded handlers with all services available. -/
def session_step (m : Metrics) : ReqScript → Metrics × List Event
  | ReqScript.ping => (m, [Event.pong])
  | ReqScript.set_language l =>
    match l with
    | none => (m, [Event.error "Language is required"])
    | some s => (m, [Event.language_set s])
  | ReqScript.get_metrics => (m, [Event.metrics_response m.totalRequests m.errors])
  | ReqScript.transcribe_audio p o =>
    let h := handle_transcribe_audio p o none
    (apply_deltas m h, h.events)
  | ReqScript.chat_with_audio q o cs =>
    let h := handle_chat_with_audio true true q o cs none true
    (apply_deltas m h, h.events)
  | ReqScript.audio_only p cs =>
    let h := handle_audio_only p cs none true
    (apply_deltas m h, h.events)
  | ReqScript.start_class ok cl cs =>
    let h := handle_start_class ok cl cs none true
    (apply_deltas m h, h.events)

/-- Process a request list from the given counters, collecting each
request's event batch. -/
def run_session_from (m : Metrics) : List ReqScript → Metrics × List (List Event)
  | [] => (m, [])
  | r :: rs =>
    let s := session_step m r
    let f := run_session_from s.1 rs
    (f.1, s.2 :: f.2)

/-- Process a request list on a fresh session. -/
def run_session (rs : List ReqScript) : Metrics × List (List Event) :=
  run_session_from init_metrics rs

/-- Requests that reach the shared streaming block and hence the final
metrics update of their handler: a chat_with_audio whose query is present
and whose collaborator returned a non-empty answer, an audio_only with
text present, and a start_class whose content resolved. -/
def reaches_stream : ReqScript → Bool
  | ReqScript.chat_with_audio (some _) (ChatOutcome.answer t) _ => !(t == "")
  | ReqScript.audio_only p _ => p
  | ReqScript.start_class ok _ _ => ok
  | _ => false

/-- Event batches of a session run that contain at least one error event:
the requests a client sees as errored. -/
def erroredBatchCount (batches : List (List Event)) : Nat :=
  batches.countP (fun evs => evs.any isErrorEv)

/-! ## The message loop (ProfAIAgent.process_messages) -/

/-- Outcome of dispatching one decoded message to its handler, as seen by
the loop: normal return with the events the handler sent, an escaped
generic exception, or an escaped ConnectionClosed. -/
inductive HandlerOutcome where
  | ok (events : List Event)
  | raisesExc (msg : String)
  | raisesClosed (code : Nat)
deriving DecidableEq

/-- One inbound frame of the loop: undecodable JSON, a decoded object with
no type field, an unknown type, or a routed message with its handler
outcome. -/
inductive InboundMsg where
  | undecodable
  | missingType
  | unknownType (t : String)
  | handled (out : HandlerOutcome)
deriving DecidableEq

/-- One iteration of the while-loop of process_messages
(websocket_server.py 219-275): returns the events sent, the remaining send
budget, the error-counter delta, and whether the loop continues.
closeCode is the close code carried by a ConnectionClosed raised by a
failing send.  An undecodable frame is answered by an unguarded error send
(a closure there propagates to the outer except and ends the loop); a
handler exception is answered by a guarded error send and the loop
continues; an escaped ConnectionClosed ends the loop, counting as an error
only when abnormal. -/
def loop_step (msg : InboundMsg) (conn : Option Nat) (closeCode : Nat) :
    List Event × Option Nat × Nat × Bool :=
  match msg with
  | InboundMsg.undecodable =>
    match sendStep conn with
    | (true, c') => ([Event.error "Invalid JSON message"], c', 0, true)
    | (false, c') => ([], c', 0, false)
  | InboundMsg.missingType =>
    match sendStep conn with
    | (true, c') => ([Event.error "Message type is required"], c', 0, true)
    | (false, c') =>
      ([], c', if closeCode = 1000 || closeCode = 1001 then 0 else 1, false)
  | InboundMsg.unknownType t =>
    match sendStep conn with
    | (true, c') => ([Event.error ("Unknown message type: " ++ t)], c', 0, true)
    | (false, c') =>
      ([], c', if closeCode = 1000 || closeCode = 1001 then 0 else 1, false)
  | InboundMsg.handled out =>
    match out with
    | HandlerOutcome.ok evs => (evs, conn, 0, true)
    | HandlerOutcome.raisesExc m =>
      match sendStep conn with
      | (true, c') => ([Event.error ("Message processing error: " ++ m)], c', 0, true)
      | (false, c') => ([], c', 0, false)
    | HandlerOutcome.raisesClosed code =>
      ([], conn, if code = 1000 || code = 1001 then 0 else 1, false)

/-- The loop of process_messages over a frame list: iterates loop_step
until a frame stops the loop or the frames run out; returns all events
sent, the total error-counter delta, and the number of frames consumed. -/
def process_messages_loop : List InboundMsg → Option Nat → Nat → List Event × Nat × Nat
  | [], _, _ => ([], 0, 0)
  | msg :: rest, conn, closeCode =>
    let s := loop_step msg conn closeCode
    if s.2.2.2 then
      let f := process_messages_loop rest s.2.1 closeCode
      (s.1 ++ f.1, s.2.2.1 + f.2.1, f.2.2 + 1)
    else
      (s.1, s.2.2.1, 1)

/-! ## Helper notions for the chunker proofs -/

/-- Words prefixed by single separating spaces:
pj [w1, ..., wk] is " w1 w2 ... wk" as a character list. -/
def pj : List (List Char) → List Char
  | [] => []
  | w :: ws => ' ' :: (w ++ pj ws)

/-- Words joined by single spaces: sJoin [w1, ..., wk] is "w1 w2 ... wk". -/
def sJoin : List (List Char) → List Char
  | [] => []
  | w :: ws => w ++ pj ws

/-- A word as produced by Python str.split: non-empty and free of
whitespace. -/
def cleanWord (w : List Char) : Prop := w ≠ [] ∧ ∀ c ∈ w, pyIsSpace c = false

/-- All words of the list are clean. -/
def cleanWords (ws : List (List Char)) : Prop := ∀ w ∈ ws, cleanWord w

/-- Total byte count of the non-empty chunks in a provider result list. -/
def nonemptyChunkBytes (cs : List ByteStr) : Nat :=
  ((cs.filter (fun c => !c.isEmpty)).map List.length).sum

/-! ## Theorems -/

/-- C1: the claim states that once at least one audio chunk of a job has
been delivered, a subsequent provider failure triggers no further provider
attempt and no re-synthesized audio for the same text.  The code violates
this: stream_audio_generation (sarvam_service.py 184-194) reacts to a
provider failure occurring AFTER a chunk was already yielded by invoking
generate_audio_ultra_fast on the whole text and yielding its audio, which
the handler then delivers to the client as a further chunk.  Concretely:
the provider yields one chunk (bytes 1) and then fails, the ultra-fast
re-synthesis returns bytes 2,3, and the client receives both the original
chunk and the re-synthesized audio. -/
theorem C1_midstream_fallback_delivers_resynthesis :
    stream_audio_generation ⟨[[1]], true, [2, 3]⟩ = [[1], [2, 3]] ∧
    (handle_audio_only true (stream_audio_from_text none ⟨[[1]], true, [2, 3]⟩)
        none true).events
      = [Event.audio_generation_started,
         Event.audio_chunk 1 1 true [1],
         Event.audio_chunk 2 2 false [2, 3],
         Event.audio_generation_complete 2 3] :=
  ⟨rfl, rfl⟩

/-- C3 counterexample: when every provider fails with zero bytes delivered
(here: ElevenLabs configured and failing with no chunks, the Sarvam stream
failing with no chunks, the ultra-fast fallback returning an empty
buffer), the claim demands exactly one error event and no completion; the
code instead sends ZERO error events and one audio_generation_complete
with total_chunks = 0. -/
theorem C3_counterexample_zero_byte_failure_completes :
    (handle_audio_only true
        (stream_audio_from_text (some ⟨[], true⟩) ⟨[], true, []⟩) none true).events
      = [Event.audio_generation_started, Event.audio_generation_complete 0 0] ∧
    ((handle_audio_only true
        (stream_audio_from_text (some ⟨[], true⟩) ⟨[], true, []⟩) none true).events.countP
      isErrorEv) = 0 :=
  ⟨rfl, rfl⟩

/-- C3 (amended): for every audio request in which every provider fails
with zero bytes delivered, the client receives NO error event and no
audio_chunk events, and exactly one audio_generation_complete event with
total_chunks = 0 and total_size = 0. -/
theorem C3_amended_zero_byte_failure (el : Option ElevenLabsRun) (sv : SarvamRun)
    (nc : Bool)
    (hel : ∀ e, el = some e → e.fails = true ∧ e.yielded.filter (fun c => !c.isEmpty) = [])
    (hy : sv.yielded.filter (fun c => !c.isEmpty) = [])
    (hf : sv.fails = true) (hu : sv.ultraFastAudio = []) :
    (handle_audio_only true (stream_audio_from_text el sv) none nc).events
      = [Event.audio_generation_started, Event.audio_generation_complete 0 0] := by
  have hsv : (stream_audio_generation sv).filter (fun c => !c.isEmpty) = [] := by
    unfold stream_audio_generation
    rw [hf, hu]
    simp [hy]
  have hchunks : stream_audio_from_text el sv = [] := by
    unfold stream_audio_from_text
    match el with
    | none => exact hsv
    | some e =>
      obtain ⟨hef, hey⟩ := hel e rfl
      simp [hef, hey, hsv]
  rw [hchunks]
  rfl

/-- C3 amended witness: the concrete all-providers-fail run. -/
theorem C3_amended_zero_byte_failure_witness :
    (handle_audio_only true (stream_audio_from_text none ⟨[], true, []⟩) none true).events
      = [Event.audio_generation_started, Event.audio_generation_complete 0 0] :=
  C3_amended_zero_byte_failure none ⟨[], true, []⟩ true
    (fun e h => by cases h) rfl rfl rfl

/-- C6 counterexample: the claim states that closure classification returns
Normal only for connection closures with code 1000 or 1001 and classifies
every other exception Abnormal.  The classifier in
utils/connection_monitor.py (one of the two named implementations) also
matches indicator phrases in arbitrary exception messages: a generic
exception whose message is "going away" — not a connection closure at all
— is classified Normal, while the websocket_server.py classifier correctly
returns Abnormal for the same exception. -/
theorem C6_counterexample_phrase_match :
    ConnMonitor.is_normal_closure
        (PyException.generic
          [ 'g', 'o', 'i', 'n', 'g', ' ', 'a', 'w', 'a', 'y' ]) = true ∧
    WsServer.is_normal_closure
        (PyException.generic
          [ 'g', 'o', 'i', 'n', 'g', ' ', 'a', 'w', 'a', 'y' ]) = false := by
  constructor
  · decide
  · rfl

/-- C6 (amended): the websocket_server.py classifier returns Normal exactly
on connection closures with code 1000 or 1001; the connection_monitor.py
classifier agrees on connection closures but additionally classifies as
Normal any other exception whose lowercased message contains one of the
phrases "code = 1000", "code = 1001", "going away", "normal closure". -/
theorem C6_closure_classification (e : PyException) :
    (WsServer.is_normal_closure e = true ↔
      (∃ m, e = PyException.connectionClosed 1000 m ∨
            e = PyException.connectionClosed 1001 m)) ∧
    (ConnMonitor.is_normal_closure e = true ↔
      ((∃ m, e = PyException.connectionClosed 1000 m ∨
             e = PyException.connectionClosed 1001 m) ∨
       (∃ m, e = PyException.generic m ∧
         (ConnMonitor.normal_indicators.any
           (fun ind => containsSeq ind (m.map pyToLower))) = true))) := by
  cases e with
  | connectionClosed code msg =>
    constructor
    · simp only [WsServer.is_normal_closure, Bool.or_eq_true, beq_iff_eq]
      constructor
      · rintro (h | h) <;> exact ⟨msg, by simp [h]⟩
      · rintro ⟨m, h | h⟩ <;> simp_all
    · simp only [ConnMonitor.is_normal_closure, Bool.or_eq_true, beq_iff_eq]
      constructor
      · rintro (h | h) <;> exact Or.inl ⟨msg, by simp [h]⟩
      · rintro (⟨m, h | h⟩ | ⟨m, h, _⟩) <;> simp_all
  | generic msg =>
    constructor
    · simp [WsServer.is_normal_closure]
    · simp [ConnMonitor.is_normal_closure]

/-- C7: a decoded inbound message whose handler raises an exception is
caught by the message loop (websocket_server.py 266-275); with the socket
still writable (open connection, modelled by a send budget of none) a
generic error event is sent and the loop continues with the next message,
so a single failed request does not terminate the connection: the rest of
the frame list is processed exactly as it would be on its own. -/
theorem C7_handler_exception_is_caught (m : String) (rest : List InboundMsg)
    (closeCode : Nat) :
    loop_step (InboundMsg.handled (HandlerOutcome.raisesExc m)) none closeCode
      = ([Event.error ("Message processing error: " ++ m)], none, 0, true) ∧
    process_messages_loop
        (InboundMsg.handled (HandlerOutcome.raisesExc m) :: rest) none closeCode
      = (Event.error ("Message processing error: " ++ m) ::
           (process_messages_loop rest none closeCode).1,
         (process_messages_loop rest none closeCode).2.1,
         (process_messages_loop rest none closeCode).2.2 + 1) := by
  refine ⟨rfl, ?_⟩
  simp [process_messages_loop, loop_step, sendStep]

/-- C8: a chat_with_audio request whose external text collaborator call
exceeds its timeout produces exactly one error event naming the timeout
after the processing acknowledgement, never reaches the streaming stage
(no audio_generation_started, no audio_chunk), and leaves no job; the same
holds for a transcribe_audio request whose STT call times out. -/
theorem C8_collaborator_timeout_no_streamjob (q : String) (chunks : List ByteStr)
    (nc : Bool) :
    (handle_chat_with_audio true true (some q) ChatOutcome.timeout chunks none nc).events
      = [Event.processing_started,
         Event.error "Response generation timeout - please try again"] ∧
    ((handle_chat_with_audio true true (some q) ChatOutcome.timeout chunks
        none nc).events.countP isStartedEv) = 0 ∧
    ((handle_chat_with_audio true true (some q) ChatOutcome.timeout chunks
        none nc).events.countP isAudioChunkEv) = 0 ∧
    (handle_chat_with_audio true true (some q) ChatOutcome.timeout chunks
        none nc).term = JobTerm.noJob ∧
    (handle_transcribe_audio true TransOutcome.timeout none).events
      = [Event.transcription_started, Event.error "Transcription timeout"] :=
  ⟨rfl, rfl, rfl, rfl, rfl⟩

/-- Over an open connection the handler loop sends exactly the closed-form
event list chunk_events, never disconnects, and advances the counters by
the number and total size of the non-empty chunks. -/
theorem handler_chunk_loop_open (cs : List ByteStr) :
    ∀ (cnt tot : Nat) (first : Bool),
    handler_chunk_loop cs none cnt tot first
      = ⟨chunk_events cs cnt first, none, cnt + nonemptyChunkCount cs,
         tot + nonemptyChunkBytes cs,
         first || decide (0 < nonemptyChunkCount cs), false⟩ := by
  induction cs with
  | nil =>
    intro cnt tot first
    simp [handler_chunk_loop, chunk_events, nonemptyChunkCount, nonemptyChunkBytes]
  | cons c rest ih =>
    intro cnt tot first
    by_cases hc : c.isEmpty
    · simp [handler_chunk_loop, chunk_events, hc, ih, nonemptyChunkCount,
        nonemptyChunkBytes, List.filter_cons]
    · simp only [handler_chunk_loop, chunk_events, hc, sendStep, ih,
        Bool.false_eq_true, if_false, cond_false]
      simp [nonemptyChunkCount, nonemptyChunkBytes, List.filter_cons, hc]
      omega

/-- Reduction of chunkIds over an audio_chunk event. -/
theorem chunkIds_cons_chunk (i s : Nat) (f : Bool) (d : ByteStr) (evs : List Event) :
    chunkIds (Event.audio_chunk i s f d :: evs) = i :: chunkIds evs := by
  simp [chunkIds, List.filterMap_cons]

/-- Reduction of firstFlags over an audio_chunk event. -/
theorem firstFlags_cons_chunk (i s : Nat) (f : Bool) (d : ByteStr) (evs : List Event) :
    firstFlags (Event.audio_chunk i s f d :: evs) = f :: firstFlags evs := by
  simp [firstFlags, List.filterMap_cons]

/-- Reduction of chunkSizes over an audio_chunk event. -/
theorem chunkSizes_cons_chunk (i s : Nat) (f : Bool) (d : ByteStr) (evs : List Event) :
    chunkSizes (Event.audio_chunk i s f d :: evs) = s :: chunkSizes evs := by
  simp [chunkSizes, List.filterMap_cons]

/-- Reduction of chunkPayloads over an audio_chunk event. -/
theorem chunkPayloads_cons_chunk (i s : Nat) (f : Bool) (d : ByteStr) (evs : List Event) :
    chunkPayloads (Event.audio_chunk i s f d :: evs) = d :: chunkPayloads evs := by
  simp [chunkPayloads, List.filterMap_cons]

/-- Chunk ids emitted over an open connection form the contiguous range
starting right after the incoming counter. -/
theorem chunkIds_chunk_events (cs : List ByteStr) :
    ∀ (cnt : Nat) (first : Bool),
    chunkIds (chunk_events cs cnt first)
      = List.range' (cnt + 1) (nonemptyChunkCount cs) := by
  induction cs with
  | nil => intro cnt first; simp [chunk_events, chunkIds, nonemptyChunkCount]
  | cons c rest ih =>
    intro cnt first
    by_cases hc : c.isEmpty
    · simp [chunk_events, hc, ih, nonemptyChunkCount, List.filter_cons]
    · simp [chunk_events, hc, chunkIds_cons_chunk, ih,
        nonemptyChunkCount, List.filter_cons, List.range'_succ]

/-- Once the first chunk has been sent, every later is_first_chunk flag is
false. -/
theorem firstFlags_chunk_events_true (cs : List ByteStr) :
    ∀ cnt, firstFlags (chunk_events cs cnt true)
      = List.replicate (nonemptyChunkCount cs) false := by
  induction cs with
  | nil => intro cnt; simp [chunk_events, firstFlags, nonemptyChunkCount]
  | cons c rest ih =>
    intro cnt
    by_cases hc : c.isEmpty
    · simp [chunk_events, hc, ih, nonemptyChunkCount, List.filter_cons]
    · simp [chunk_events, hc, firstFlags_cons_chunk, ih,
        nonemptyChunkCount, List.filter_cons, List.replicate_succ]

/-- Before any chunk was sent, the flag sequence of a run that delivers at
least one chunk is true followed by falses. -/
theorem firstFlags_chunk_events_false (cs : List ByteStr) :
    ∀ cnt, 0 < nonemptyChunkCount cs →
    firstFlags (chunk_events cs cnt false)
      = true :: List.replicate (nonemptyChunkCount cs - 1) false := by
  induction cs with
  | nil => intro cnt h; simp [nonemptyChunkCount] at h
  | cons c rest ih =>
    intro cnt h
    by_cases hc : c.isEmpty
    · have h' : 0 < nonemptyChunkCount rest := by
        simpa [nonemptyChunkCount, List.filter_cons, hc] using h
      simpa [chunk_events, hc, nonemptyChunkCount, List.filter_cons] using ih cnt h'
    · simp [chunk_events, hc, firstFlags_cons_chunk,
        firstFlags_chunk_events_true, nonemptyChunkCount, List.filter_cons]

/-- Every event the handler loop emits is an audio_chunk event. -/
theorem handler_chunk_loop_all_chunks (cs : List ByteStr) :
    ∀ (conn : Option Nat) (cnt tot : Nat) (first : Bool),
    ((handler_chunk_loop cs conn cnt tot first).events.all isAudioChunkEv) = true := by
  induction cs with
  | nil => intro conn cnt tot first; simp [handler_chunk_loop]
  | cons c rest ih =>
    intro conn cnt tot first
    by_cases hc : c.isEmpty
    · simpa [handler_chunk_loop, hc] using ih conn cnt tot first
    · rcases hs : sendStep conn with ⟨ok, conn'⟩
      cases ok
      · simp [handler_chunk_loop, hc, hs]
      · simpa [handler_chunk_loop, hc, hs, isAudioChunkEv] using
          ih conn' (cnt + 1) (tot + c.length) true

/-- Every audio_chunk event the handler loop emits has positive size and a
non-empty payload (empty provider results are filtered before any counter
or send). -/
theorem handler_chunk_loop_chunks_nonempty (cs : List ByteStr) :
    ∀ (conn : Option Nat) (cnt tot : Nat) (first : Bool),
    ((chunkSizes (handler_chunk_loop cs conn cnt tot first).events).all
        (fun s => decide (0 < s))) = true ∧
    ((chunkPayloads (handler_chunk_loop cs conn cnt tot first).events).all
        (fun d => !d.isEmpty)) = true := by
  induction cs with
  | nil => intro conn cnt tot first; simp [handler_chunk_loop, chunkSizes, chunkPayloads]
  | cons c rest ih =>
    intro conn cnt tot first
    by_cases hc : c.isEmpty
    · simpa [handler_chunk_loop, hc] using ih conn cnt tot first
    · have hlen : 0 < c.length := by
        cases c with
        | nil => simp at hc
        | cons a as => simp
      rcases hs : sendStep conn with ⟨ok, conn'⟩
      cases ok
      · simp [handler_chunk_loop, hc, hs, chunkSizes, chunkPayloads]
      · have := ih conn' (cnt + 1) (tot + c.length) true
        simp only [handler_chunk_loop, hc, hs, Bool.false_eq_true, if_false,
          chunkSizes_cons_chunk, chunkPayloads_cons_chunk, List.all_cons,
          Bool.and_eq_true]
        exact ⟨⟨by simpa using hlen, this.1⟩, ⟨by simp [hc], this.2⟩⟩

/-- When the send budget runs out before the non-empty chunks do, the loop
delivers exactly the first budget-many chunk events and reports the
disconnection. -/
theorem handler_chunk_loop_budget (cs : List ByteStr) :
    ∀ (N cnt tot : Nat) (first : Bool), N < nonemptyChunkCount cs →
    chunkIds (handler_chunk_loop cs (some N) cnt tot first).events
        = List.range' (cnt + 1) N ∧
    (handler_chunk_loop cs (some N) cnt tot first).disconnected = true := by
  induction cs with
  | nil => intro N cnt tot first h; simp [nonemptyChunkCount] at h
  | cons c rest ih =>
    intro N cnt tot first h
    by_cases hc : c.isEmpty
    · have h' : N < nonemptyChunkCount rest := by
        simpa [nonemptyChunkCount, List.filter_cons, hc] using h
      simpa [handler_chunk_loop, hc] using ih N cnt tot first h'
    · cases N with
      | zero => simp [handler_chunk_loop, hc, sendStep, chunkIds]
      | succ k =>
        have h' : k < nonemptyChunkCount rest := by
          have hcnt : nonemptyChunkCount (c :: rest) = nonemptyChunkCount rest + 1 := by
            simp [nonemptyChunkCount, List.filter_cons, hc]
          omega
        obtain ⟨h1, h2⟩ := ih k (cnt + 1) (tot + c.length) true h'
        simp [handler_chunk_loop, hc, sendStep, chunkIds_cons_chunk,
          h1, h2, List.range'_succ]

/-- C2: if the connection monitor reports disconnected between chunk N and
chunk N+1 — modelled by a send budget that allows the
audio_generation_started send plus exactly N chunk sends before every
further send raises ConnectionClosed — then no chunk N+1 or later is ever
delivered for the job (the delivered chunk ids are exactly 1..N), no
completion and no error event is sent, and the job terminates ABORTED
(the ConnectionClosed branch), not FAILED. -/
theorem C2_disconnect_aborts_job (chunks : List ByteStr) (N : Nat) (nc : Bool)
    (hN : N < nonemptyChunkCount chunks) :
    chunkIds (handle_audio_only true chunks (some (N + 1)) nc).events
        = List.range' 1 N ∧
    ((handle_audio_only true chunks (some (N + 1)) nc).events.countP isCompleteEv) = 0 ∧
    ((handle_audio_only true chunks (some (N + 1)) nc).events.countP isErrorEv) = 0 ∧
    (handle_audio_only true chunks (some (N + 1)) nc).term = JobTerm.aborted ∧
    (handle_audio_only true chunks (some (N + 1)) nc).term ≠ JobTerm.failed := by
  obtain ⟨h1, h2⟩ := handler_chunk_loop_budget chunks N 0 0 false hN
  have hall := handler_chunk_loop_all_chunks chunks (some N) 0 0 false
  have hnotp : ∀ p : Event → Bool, (∀ i s f d, p (Event.audio_chunk i s f d) = false) →
      ((handler_chunk_loop chunks (some N) 0 0 false).events.countP p) = 0 := by
    intro p hp
    refine List.countP_eq_zero.mpr ?_
    intro e he
    have hae := List.all_eq_true.mp hall e he
    cases e
    case audio_chunk i s f d => simp [hp]
    all_goals simp [isAudioChunkEv] at hae
  have e1 : handle_audio_only true chunks (some (N + 1)) nc
      = ⟨Event.audio_generation_started ::
           (handler_chunk_loop chunks (some N) 0 0 false).events,
         (handler_chunk_loop chunks (some N) 0 0 false).conn,
         JobTerm.aborted, if nc then 0 else 1, 1, 0, 1, 0, false⟩ := by
    unfold handle_audio_only streaming_try_block
    simp [sendStep, h2]
  rw [e1]
  refine ⟨?_, ?_, ?_, ?_, ?_⟩
  · simpa [chunkIds, List.filterMap_cons] using h1
  · simp [List.countP_cons, isCompleteEv, hnotp isCompleteEv (by intro i s f d; rfl)]
  · simp [List.countP_cons, isErrorEv, hnotp isErrorEv (by intro i s f d; rfl)]
  · rfl
  · simp

/-- C2 witness: a job of two non-empty chunks disconnected after chunk 1
delivers exactly chunk 1 and aborts. -/
theorem C2_disconnect_aborts_job_witness :
    chunkIds (handle_audio_only true [[5], [6]] (some 2) true).events
      = List.range' 1 1 :=
  (C2_disconnect_aborts_job [[5], [6]] 1 true (by decide)).1

/-- Over an open connection the shared streaming block delivers the
chunk events followed by one audio_generation_complete carrying the
non-empty-chunk totals, and the job completes with no error increment. -/
theorem streaming_try_block_open (chunks : List ByteStr) (nc : Bool) :
    streaming_try_block chunks none nc
      = (chunk_events chunks 0 false ++
           [Event.audio_generation_complete (nonemptyChunkCount chunks)
              (nonemptyChunkBytes chunks)],
         none, JobTerm.complete, 0) := by
  unfold streaming_try_block
  rw [handler_chunk_loop_open]
  simp [sendStep]

/-- Event trace of handle_audio_only over an open connection. -/
theorem handle_audio_only_open_events (chunks : List ByteStr) (nc : Bool) :
    (handle_audio_only true chunks none nc).events
      = Event.audio_generation_started ::
          (chunk_events chunks 0 false ++
            [Event.audio_generation_complete (nonemptyChunkCount chunks)
               (nonemptyChunkBytes chunks)]) := by
  unfold handle_audio_only
  simp [sendStep, streaming_try_block_open]

/-- Event trace of handle_chat_with_audio over an open connection with a
resolved non-empty answer. -/
theorem handle_chat_with_audio_open_events (chunks : List ByteStr) (nc : Bool)
    (q t : String) (ht : ¬t = "") :
    (handle_chat_with_audio true true (some q) (ChatOutcome.answer t) chunks
        none nc).events
      = Event.processing_started :: Event.text_response t ::
          Event.audio_generation_started ::
          (chunk_events chunks 0 false ++
            [Event.audio_generation_complete (nonemptyChunkCount chunks)
               (nonemptyChunkBytes chunks)]) := by
  unfold handle_chat_with_audio
  simp [sendStep, streaming_try_block_open, ht]

/-- Event trace of handle_start_class over an open connection with resolved
content. -/
theorem handle_start_class_open_events (chunks : List ByteStr) (nc : Bool)
    (cl : Nat) :
    (handle_start_class true cl chunks none nc).events
      = Event.class_starting :: Event.course_info :: Event.teaching_content cl ::
          Event.audio_generation_started ::
          (chunk_events chunks 0 false ++
            [Event.audio_generation_complete (nonemptyChunkCount chunks)
               (nonemptyChunkBytes chunks)]) := by
  unfold handle_start_class
  simp [sendStep, streaming_try_block_open]

/-- Chunk ids of the chunk events starting at counter 0 form 1..n, and the
flags of a delivering run have exactly one true. -/
theorem chunk_trace_spec (chunks : List ByteStr)
    (hn : 0 < nonemptyChunkCount chunks) :
    chunkIds (chunk_events chunks 0 false)
        = List.range' 1 (nonemptyChunkCount chunks) ∧
    (firstFlags (chunk_events chunks 0 false)).count true = 1 := by
  refine ⟨chunkIds_chunk_events chunks 0 false, ?_⟩
  rw [firstFlags_chunk_events_false chunks 0 hn]
  simp [List.count_cons, List.count_replicate]

/-- C5: for a successful StreamJob — open connection, at least one
non-empty provider chunk, and for chat a present query with a non-empty
resolved answer, for start_class resolved content — the chunk_id values of
the audio_chunk events sent by each of handle_audio_only,
handle_chat_with_audio and handle_start_class are exactly the contiguous
strictly increasing sequence 1, 2, ..., n, and is_first_chunk is true for
exactly one of those events. -/
theorem C5_chunk_ids_and_first_flag (chunks : List ByteStr) (nc : Bool)
    (q t : String) (cl : Nat)
    (hn : 0 < nonemptyChunkCount chunks) (ht : ¬t = "") :
    chunkIds (handle_audio_only true chunks none nc).events
        = List.range' 1 (nonemptyChunkCount chunks) ∧
    (firstFlags (handle_audio_only true chunks none nc).events).count true = 1 ∧
    chunkIds (handle_chat_with_audio true true (some q) (ChatOutcome.answer t)
        chunks none nc).events
        = List.range' 1 (nonemptyChunkCount chunks) ∧
    (firstFlags (handle_chat_with_audio true true (some q) (ChatOutcome.answer t)
        chunks none nc).events).count true = 1 ∧
    chunkIds (handle_start_class true cl chunks none nc).events
        = List.range' 1 (nonemptyChunkCount chunks) ∧
    (firstFlags (handle_start_class true cl chunks none nc).events).count true = 1 := by
  obtain ⟨hids, hflag⟩ := chunk_trace_spec chunks hn
  rw [handle_audio_only_open_events chunks nc,
    handle_chat_with_audio_open_events chunks nc q t ht,
    handle_start_class_open_events chunks nc cl]
  refine ⟨?_, ?_, ?_, ?_, ?_, ?_⟩ <;>
    simp [chunkIds, firstFlags, List.filterMap_cons, List.filterMap_append] <;>
    simp [chunkIds, firstFlags] at hids hflag <;>
    simp [hids, hflag]

/-- C5 witness: a one-chunk job on each handler. -/
theorem C5_chunk_ids_and_first_flag_witness :
    chunkIds (handle_audio_only true [[7]] none true).events = List.range' 1 1 :=
  (C5_chunk_ids_and_first_flag [[7]] true "q" "hi" 5 (by decide) (by decide)).1

/-- C10: every audio_chunk event sent by handle_audio_only carries a
positive size and a non-empty payload, over any connection state: the
handler filters empty provider results before counting or sending.
Moreover, over an open connection no chunk_id is consumed by a filtered
result: the ids are exactly 1..n for the n non-empty chunks, whatever
empty results are interleaved. -/
theorem C10_chunks_nonempty (chunks : List ByteStr) (conn : Option Nat) (nc : Bool) :
    ((chunkSizes (handle_audio_only true chunks conn nc).events).all
        (fun s => decide (0 < s))) = true ∧
    ((chunkPayloads (handle_audio_only true chunks conn nc).events).all
        (fun d => !d.isEmpty)) = true ∧
    chunkIds (handle_audio_only true chunks none nc).events
        = List.range' 1 (nonemptyChunkCount chunks) := by
  refine ⟨?_, ?_, ?_⟩
  · cases conn with
    | none =>
      obtain ⟨h, _⟩ := handler_chunk_loop_chunks_nonempty chunks none 0 0 false
      rw [handle_audio_only_open_events chunks nc]
      rw [handler_chunk_loop_open] at h
      simp only [chunkSizes, List.filterMap_cons, List.filterMap_append] at h ⊢
      simp [h]
    | some k =>
      cases k with
      | zero => simp [handle_audio_only, sendStep, chunkSizes]
      | succ j =>
        obtain ⟨h, _⟩ := handler_chunk_loop_chunks_nonempty chunks (some j) 0 0 false
        unfold handle_audio_only streaming_try_block
        rcases hd : (handler_chunk_loop chunks (some j) 0 0 false).disconnected with _ | _ <;>
          rcases hs : sendStep (handler_chunk_loop chunks (some j) 0 0 false).conn
            with ⟨ok, c⟩ <;> cases ok <;>
          simp_all [sendStep, chunkSizes, List.filterMap_cons, List.filterMap_append]
  · cases conn with
    | none =>
      obtain ⟨_, h⟩ := handler_chunk_loop_chunks_nonempty chunks none 0 0 false
      rw [handle_audio_only_open_events chunks nc]
      rw [handler_chunk_loop_open] at h
      simp only [chunkPayloads, List.filterMap_cons, List.filterMap_append] at h ⊢
      simp [h]
    | some k =>
      cases k with
      | zero => simp [handle_audio_only, sendStep, chunkPayloads]
      | succ j =>
        obtain ⟨_, h⟩ := handler_chunk_loop_chunks_nonempty chunks (some j) 0 0 false
        unfold handle_audio_only streaming_try_block
        rcases hd : (handler_chunk_loop chunks (some j) 0 0 false).disconnected with _ | _ <;>
          rcases hs : sendStep (handler_chunk_loop chunks (some j) 0 0 false).conn
            with ⟨ok, c⟩ <;> cases ok <;>
          simp_all [sendStep, chunkPayloads, List.filterMap_cons, List.filterMap_append]
  · rw [handle_audio_only_open_events chunks nc]
    have hids := chunkIds_chunk_events chunks 0 false
    simp only [chunkIds, List.filterMap_cons, List.filterMap_append] at hids ⊢
    simp [hids]

/-- On an open connection one request advances total_requests exactly when
it reaches the streaming stage, and never touches the error counter:
early-exit error paths (missing fields, collaborator timeout or failure,
empty answer, transcription failure) increment neither counter. -/
theorem session_step_counters (m : Metrics) (r : ReqScript) :
    (session_step m r).1.totalRequests
        = m.totalRequests + (if reaches_stream r then 1 else 0) ∧
    (session_step m r).1.errors = m.errors := by
  cases r with
  | ping => simp [session_step, reaches_stream]
  | set_language l => cases l <;> simp [session_step, reaches_stream]
  | get_metrics => simp [session_step, reaches_stream]
  | transcribe_audio p o =>
    cases p with
    | false =>
      cases o <;>
        simp [session_step, reaches_stream, handle_transcribe_audio, sendStep,
          apply_deltas]
    | true =>
      cases o with
      | ok t =>
        by_cases ht : t = "" <;>
          simp [session_step, reaches_stream, handle_transcribe_audio, sendStep,
            apply_deltas, ht]
      | timeout =>
        simp [session_step, reaches_stream, handle_transcribe_audio, sendStep,
          apply_deltas]
      | failure m =>
        simp [session_step, reaches_stream, handle_transcribe_audio, sendStep,
          apply_deltas]
  | chat_with_audio q o cs =>
    cases q with
    | none =>
      cases o <;>
        simp [session_step, reaches_stream, handle_chat_with_audio, sendStep,
          apply_deltas]
    | some s =>
      cases o with
      | answer t =>
        by_cases ht : t = ""
        · simp [session_step, reaches_stream, handle_chat_with_audio, sendStep,
            apply_deltas, ht]
        · simp [session_step, reaches_stream, handle_chat_with_audio, sendStep,
            apply_deltas, ht, streaming_try_block_open]
      | timeout =>
        simp [session_step, reaches_stream, handle_chat_with_audio, sendStep,
          apply_deltas]
      | failure msg =>
        simp [session_step, reaches_stream, handle_chat_with_audio, sendStep,
          apply_deltas]
  | audio_only p cs =>
    cases p <;>
      simp [session_step, reaches_stream, handle_audio_only, sendStep,
        apply_deltas, streaming_try_block_open]
  | start_class ok cl cs =>
    cases ok <;>
      simp [session_step, reaches_stream, handle_start_class, sendStep,
        apply_deltas, streaming_try_block_open]

/-- Counter evolution over a whole request list on an open connection. -/
theorem run_session_from_counters (rs : List ReqScript) :
    ∀ m : Metrics,
    (run_session_from m rs).1.totalRequests
        = m.totalRequests + rs.countP reaches_stream ∧
    (run_session_from m rs).1.errors = m.errors := by
  induction rs with
  | nil => intro m; simp [run_session_from]
  | cons r rest ih =>
    intro m
    obtain ⟨h1, h2⟩ := session_step_counters m r
    obtain ⟨h3, h4⟩ := ih (session_step m r).1
    constructor
    · simp only [run_session_from]
      rw [h3, h1, List.countP_cons]
      split <;> omega
    · simp only [run_session_from]
      rw [h4, h2]

/-- Splitting a session run at any point composes. -/
theorem run_session_from_append (xs ys : List ReqScript) :
    ∀ m, run_session_from m (xs ++ ys)
      = ((run_session_from (run_session_from m xs).1 ys).1,
         (run_session_from m xs).2 ++ (run_session_from (run_session_from m xs).1 ys).2) := by
  induction xs with
  | nil => intro m; simp [run_session_from]
  | cons x xs ih => intro m; simp [run_session_from, ih]

/-- C9 counterexample: the claim states the error counter matches the
number of errored requests exactly.  A session that processes one
chat_with_audio whose collaborator times out and then a get_metrics shows
drift: the client received one errored request (an error event was
emitted), yet the metrics_response reports errors = 0 and
total_requests = 0, because the timeout path returns before any counter
update. -/
theorem C9_counterexample_timeout_drift :
    (run_session [ReqScript.chat_with_audio (some "hi") ChatOutcome.timeout [],
                  ReqScript.get_metrics]).2
      = [[Event.processing_started,
          Event.error "Response generation timeout - please try again"],
         [Event.metrics_response 0 0]] ∧
    erroredBatchCount
      (run_session [ReqScript.chat_with_audio (some "hi") ChatOutcome.timeout [],
                    ReqScript.get_metrics]).2 = 1 :=
  ⟨rfl, rfl⟩

/-- C9 (amended): after any sequence of requests on one open Session,
get_metrics reports total_requests equal to the number of chat_with_audio,
start_class and audio_only requests that reached the streaming stage, and
errors equal to 0: requests that errored out early (missing fields,
collaborator timeout or failure, empty answer, transcription failure) are
counted in neither counter, so the counters track streamed requests, not
completed-or-errored requests. -/
theorem C9_amended_counters (rs : List ReqScript) :
    (run_session rs).1.totalRequests = rs.countP reaches_stream ∧
    (run_session rs).1.errors = 0 ∧
    (run_session (rs ++ [ReqScript.get_metrics])).2
      = (run_session rs).2 ++
          [[Event.metrics_response (rs.countP reaches_stream) 0]] := by
  obtain ⟨h1, h2⟩ := run_session_from_counters rs init_metrics
  have h1' : (run_session rs).1.totalRequests = rs.countP reaches_stream := by
    simpa [run_session, init_metrics] using h1
  have h2' : (run_session rs).1.errors = 0 := by
    simpa [run_session, init_metrics] using h2
  refine ⟨h1', h2', ?_⟩
  rw [run_session, run_session_from_append]
  simp only [run_session_from, session_step]
  rw [show (run_session_from init_metrics rs) = run_session rs from rfl, h1', h2']

/-- Distributing pj over append. -/
theorem pj_append (a b : List (List Char)) : pj (a ++ b) = pj a ++ pj b := by
  induction a with
  | nil => simp [pj]
  | cons w t ih => simp [pj, ih]

/-- Joining a split list whose left part is non-empty. -/
theorem sJoin_append_left (p s : List (List Char)) (hp : p ≠ []) :
    sJoin (p ++ s) = sJoin p ++ pj s := by
  induction p with
  | nil => exact absurd rfl hp
  | cons w t ih =>
    cases t with
    | nil => simp [sJoin, pj, pj_append]
    | cons v t' =>
      have hpp : pj ((v :: t') ++ s) = pj (v :: t') ++ pj s := pj_append (v :: t') s
      simp only [List.cons_append] at hpp
      simp [sJoin, hpp, List.append_assoc]

/-- pj of a non-empty word list is a space followed by the join. -/
theorem pj_of_ne_nil (g : List (List Char)) (hg : g ≠ []) :
    pj g = ' ' :: sJoin g := by
  cases g with
  | nil => exact absurd rfl hg
  | cons w t => simp [pj, sJoin]

/-- The join of a non-empty clean word list is non-empty. -/
theorem sJoin_ne_nil (ws : List (List Char)) (h : cleanWords ws) (hne : ws ≠ []) :
    sJoin ws ≠ [] := by
  cases ws with
  | nil => exact absurd rfl hne
  | cons w t =>
    have hw : w ≠ [] := (h w (List.mem_cons_self w t)).1
    simp [sJoin]
    intro hw'
    exact absurd hw' hw

/-- dropWhile does nothing on a list led by a clean word. -/
theorem dropWhile_word_head (w rest : List Char) (hw : cleanWord w) :
    (w ++ rest).dropWhile pyIsSpace = w ++ rest := by
  obtain ⟨hne, hall⟩ := hw
  cases w with
  | nil => exact absurd rfl hne
  | cons c t =>
    have hc : pyIsSpace c = false := hall c (List.mem_cons_self c t)
    simp [List.dropWhile_cons, hc]

/-- dropWhile does nothing on an all-non-space list. -/
theorem dropWhile_all_nonspace (l : List Char) (h : ∀ c ∈ l, pyIsSpace c = false) :
    l.dropWhile pyIsSpace = l := by
  cases l with
  | nil => rfl
  | cons c t =>
    have hc : pyIsSpace c = false := h c (List.mem_cons_self c t)
    simp [List.dropWhile_cons, hc]

/-- The join of clean words has no leading whitespace. -/
theorem front_sJoin (ws : List (List Char)) (h : cleanWords ws) :
    (sJoin ws).dropWhile pyIsSpace = sJoin ws := by
  cases ws with
  | nil => rfl
  | cons w t =>
    have := dropWhile_word_head w (pj t) (h w (List.mem_cons_self w t))
    simpa [sJoin] using this

/-- Left-stripping pj of clean words yields their join. -/
theorem front_pj (ws : List (List Char)) (h : cleanWords ws) :
    (pj ws).dropWhile pyIsSpace = sJoin ws := by
  cases ws with
  | nil => rfl
  | cons w t =>
    have h1 : pyIsSpace ' ' = true := rfl
    have h2 := dropWhile_word_head w (pj t) (h w (List.mem_cons_self w t))
    simp [pj, sJoin, List.dropWhile_cons, h1, h2]

/-- A reversed pj of clean words resists dropWhile whatever follows it. -/
theorem rev_pj_dropWhile (ws : List (List Char)) :
    cleanWords ws → ws ≠ [] →
    ∀ tail, ((pj ws).reverse ++ tail).dropWhile pyIsSpace = (pj ws).reverse ++ tail := by
  induction ws with
  | nil => intro _ hne; exact absurd rfl hne
  | cons w t ih =>
    intro h _ tail
    obtain ⟨hwne, hwall⟩ := h w (List.mem_cons_self w t)
    cases t with
    | nil =>
      have hrw : (pj [w]).reverse ++ tail = w.reverse ++ (' ' :: tail) := by
        simp [pj]
      rw [hrw]
      rcases hw : w.reverse with _ | ⟨c, cs⟩
      · exact absurd (by simpa using hw) hwne
      · have hc : pyIsSpace c = false := by
          refine hwall c ?_
          have : c ∈ w.reverse := by rw [hw]; exact List.mem_cons_self c cs
          simpa using this
        simp [List.dropWhile_cons, hc]
    | cons v t' =>
      have ht : cleanWords (v :: t') := fun x hx => h x (List.mem_cons_of_mem w hx)
      have hrw : (pj (w :: v :: t')).reverse ++ tail
          = (pj (v :: t')).reverse ++ (w.reverse ++ (' ' :: tail)) := by
        simp [pj, List.reverse_append, List.append_assoc]
      rw [hrw, ih ht (by simp) (w.reverse ++ (' ' :: tail))]

/-- The join of clean words has no trailing whitespace. -/
theorem back_sJoin (ws : List (List Char)) (h : cleanWords ws) :
    ((sJoin ws).reverse.dropWhile pyIsSpace).reverse = sJoin ws := by
  cases ws with
  | nil => rfl
  | cons w t =>
    obtain ⟨hwne, hwall⟩ := h w (List.mem_cons_self w t)
    cases t with
    | nil =>
      have hall : ∀ c ∈ w.reverse, pyIsSpace c = false := by
        intro c hc
        exact hwall c (by simpa using hc)
      have : (sJoin [w]).reverse = w.reverse := by simp [sJoin, pj]
      rw [this, dropWhile_all_nonspace w.reverse hall]
      simp [sJoin, pj]
    | cons v t' =>
      have ht : cleanWords (v :: t') := fun x hx => h x (List.mem_cons_of_mem w hx)
      have hrw : (sJoin (w :: v :: t')).reverse = (pj (v :: t')).reverse ++ w.reverse := by
        simp [sJoin]
      rw [hrw, rev_pj_dropWhile (v :: t') ht (by simp) w.reverse]
      simp [sJoin]

/-- Python strip leaves the single-space join of clean words unchanged. -/
theorem pyStrip_sJoin (ws : List (List Char)) (h : cleanWords ws) :
    pyStrip (sJoin ws) = sJoin ws := by
  unfold pyStrip
  rw [front_sJoin ws h]
  exact back_sJoin ws h

/-- Python strip turns a space-led pj of clean words into their join. -/
theorem pyStrip_pj (ws : List (List Char)) (h : cleanWords ws) :
    pyStrip (pj ws) = sJoin ws := by
  unfold pyStrip
  rw [front_pj ws h]
  exact back_sJoin ws h

/-- The split worker swallows a whitespace-free block into its accumulator. -/
theorem pySplitAux_word (u : List Char) (hu : ∀ c ∈ u, pyIsSpace c = false) :
    ∀ (rest acc : List Char),
    pySplitAux (u ++ rest) acc = pySplitAux rest (u.reverse ++ acc) := by
  induction u with
  | nil => intro rest acc; simp
  | cons c u' ih =>
    intro rest acc
    have hc : pyIsSpace c = false := hu c (List.mem_cons_self c u')
    have hu' : ∀ x ∈ u', pyIsSpace x = false :=
      fun x hx => hu x (List.mem_cons_of_mem c hx)
    simp [pySplitAux, hc, ih hu' rest (c :: acc), List.append_assoc]

/-- Python str.split is a left inverse of the single-space join on clean
words. -/
theorem pySplit_sJoin : ∀ ws : List (List Char), cleanWords ws →
    pySplit (sJoin ws) = ws := by
  intro ws
  induction ws with
  | nil => intro _; rfl
  | cons w t ih =>
    intro h
    obtain ⟨hwne, hwall⟩ := h w (List.mem_cons_self w t)
    have ht : cleanWords t := fun x hx => h x (List.mem_cons_of_mem w hx)
    have hstep : pySplit (sJoin (w :: t)) = pySplitAux (pj t) w.reverse := by
      have := pySplitAux_word w hwall (pj t) []
      simpa [pySplit, sJoin] using this
    rw [hstep]
    cases t with
    | nil =>
      have hrevne : w.reverse.isEmpty = false := by
        cases w with
        | nil => exact absurd rfl hwne
        | cons c u => simp
      simp [pj, pySplitAux, hrevne]
    | cons v t' =>
      have hrevne : w.reverse.isEmpty = false := by
        cases w with
        | nil => exact absurd rfl hwne
        | cons c u => simp
      have hsp : pyIsSpace ' ' = true := rfl
      have hpj : pj (v :: t') = ' ' :: sJoin (v :: t') := pj_of_ne_nil (v :: t') (by simp)
      rw [hpj]
      simp [pySplitAux, hsp, hrevne, ih ht]
      exact ih ht

/-- pj ignores a regrouping into non-empty groups. -/
theorem pj_map_sJoin : ∀ parts : List (List (List Char)),
    (∀ g ∈ parts, g ≠ []) → pj (parts.map sJoin) = pj parts.flatten := by
  intro parts
  induction parts with
  | nil => intro _; rfl
  | cons g rest ih =>
    intro h
    have hg : g ≠ [] := (h g (List.mem_cons_self g rest))
    have hrest : ∀ x ∈ rest, x ≠ [] := fun x hx => h x (List.mem_cons_of_mem g hx)
    have hpp : pj (g ++ rest.flatten) = pj g ++ pj rest.flatten :=
      pj_append g rest.flatten
    rw [List.map_cons, List.flatten_cons, hpp, pj_of_ne_nil g hg]
    rw [show pj (sJoin g :: rest.map sJoin)
        = ' ' :: (sJoin g ++ pj (rest.map sJoin)) from rfl]
    rw [ih hrest]
    simp

/-- sJoin ignores a regrouping into non-empty groups. -/
theorem sJoin_map_sJoin (parts : List (List (List Char)))
    (h : ∀ g ∈ parts, g ≠ []) : sJoin (parts.map sJoin) = sJoin parts.flatten := by
  cases parts with
  | nil => rfl
  | cons g rest =>
    have hg : g ≠ [] := (h g (List.mem_cons_self g rest))
    have hrest : ∀ x ∈ rest, x ≠ [] := fun x hx => h x (List.mem_cons_of_mem g hx)
    rw [List.map_cons, List.flatten_cons, sJoin_append_left g rest.flatten hg]
    rw [show sJoin (sJoin g :: rest.map sJoin)
        = sJoin g ++ pj (rest.map sJoin) from rfl]
    rw [pj_map_sJoin rest hrest]

/-- Non-emptiness of the join of clean words, in isEmpty form. -/
theorem sJoin_isEmpty_false (p : List (List Char)) (hp : cleanWords p)
    (hpn : p ≠ []) : (sJoin p).isEmpty = false := by
  have h := sJoin_ne_nil p hp hpn
  cases hsp : sJoin p with
  | nil => exact absurd hsp h
  | cons c cs => rfl

/-- Specification of the greedy word packer split_text_fast_aux on clean
input: whatever the size threshold, the produced chunks are the
single-space joins of a partition of the incoming words into non-empty
consecutive groups (no word is ever cut or dropped). -/
theorem split_text_fast_aux_spec (max : Nat) :
    ∀ (ws p : List (List Char)), cleanWords ws → cleanWords p →
    ∃ parts : List (List (List Char)),
      split_text_fast_aux max ws (sJoin p) = parts.map sJoin ∧
      parts.flatten = p ++ ws ∧
      ∀ g ∈ parts, g ≠ [] ∧ cleanWords g := by
  intro ws
  induction ws with
  | nil =>
    intro p hws hp
    by_cases hpn : p = []
    · subst hpn
      exact ⟨[], by simp [split_text_fast_aux, sJoin], by simp, by simp⟩
    · refine ⟨[p], ?_, by simp, ?_⟩
      · have hE : (sJoin p).isEmpty = false := sJoin_isEmpty_false p hp hpn
        simp [split_text_fast_aux, hE, pyStrip_sJoin p hp]
      · intro g hg
        simp only [List.mem_singleton] at hg
        subst hg
        exact ⟨hpn, hp⟩
  | cons w t ih =>
    intro p hws hp
    have hw : cleanWord w := hws w (List.mem_cons_self w t)
    have hwt : cleanWords t := fun x hx => hws x (List.mem_cons_of_mem w hx)
    have hwsingle : cleanWords [w] := by
      intro x hx
      simp only [List.mem_singleton] at hx
      subst hx
      exact hw
    have hw1 : w = sJoin [w] := by simp [sJoin, pj]
    by_cases hcond : (sJoin p).length + w.length + 1 ≤ max
    · have hcur : (if (sJoin p).isEmpty then w else sJoin p ++ ' ' :: w)
          = sJoin (p ++ [w]) := by
        by_cases hpn : p = []
        · subst hpn; simp [sJoin, pj]
        · have hE := sJoin_isEmpty_false p hp hpn
          rw [sJoin_append_left p [w] hpn]
          simp [pj, hE]
      have hstep : split_text_fast_aux max (w :: t) (sJoin p)
          = split_text_fast_aux max t (sJoin (p ++ [w])) := by
        simp only [split_text_fast_aux, hcond, if_true, hcur]
      have hpw : cleanWords (p ++ [w]) := by
        intro x hx
        rcases List.mem_append.mp hx with h1 | h1
        · exact hp x h1
        · simp only [List.mem_singleton] at h1
          subst h1
          exact hw
      obtain ⟨parts, h1, h2, h3⟩ := ih (p ++ [w]) hwt hpw
      refine ⟨parts, by rw [hstep]; exact h1, ?_, h3⟩
      rw [h2]
      simp
    · by_cases hpn : p = []
      · subst hpn
        have hstep : split_text_fast_aux max (w :: t) (sJoin [])
            = split_text_fast_aux max t w := by
          simp only [split_text_fast_aux, sJoin, List.isEmpty_nil, if_true]
          split <;> rfl
        obtain ⟨parts, h1, h2, h3⟩ := ih [w] hwt hwsingle
        rw [← hw1] at h1
        refine ⟨parts, by rw [hstep]; exact h1, ?_, h3⟩
        rw [h2]
        simp
      · have hE := sJoin_isEmpty_false p hp hpn
        have hstep : split_text_fast_aux max (w :: t) (sJoin p)
            = pyStrip (sJoin p) :: split_text_fast_aux max t w := by
          simp only [split_text_fast_aux, hcond, if_false, hE, Bool.false_eq_true]
        obtain ⟨parts, h1, h2, h3⟩ := ih [w] hwt hwsingle
        rw [← hw1] at h1
        refine ⟨p :: parts, ?_, ?_, ?_⟩
        · rw [hstep, pyStrip_sJoin p hp, h1, List.map_cons]
        · rw [List.flatten_cons, h2]
          simp
        · intro g hg
          rcases List.mem_cons.mp hg with h4 | h4
          · subst h4
            exact ⟨hpn, hp⟩
          · exact h3 g h4

/-- From a non-empty accumulator, the first-chunk loop appends some prefix
of the remaining words, space-separated. -/
theorem first_chunk_aux_extend (max : Nat) :
    ∀ (ws : List (List Char)) (fc : List Char) (wc : Nat), fc ≠ [] →
    ∃ k ≤ ws.length, first_chunk_aux max ws fc wc = fc ++ pj (ws.take k) := by
  intro ws
  induction ws with
  | nil =>
    intro fc wc _
    exact ⟨0, by simp, by simp [first_chunk_aux, pj]⟩
  | cons w t ih =>
    intro fc wc hfc
    have hfcE : fc.isEmpty = false := by
      cases fc with
      | nil => exact absurd rfl hfc
      | cons c cs => rfl
    by_cases hcond : (fc.length + 1 + w.length ≤ max && wc < 100) = true
    · have hstep : first_chunk_aux max (w :: t) fc wc
          = first_chunk_aux max t (fc ++ ' ' :: w) (wc + 1) := by
        simp only [first_chunk_aux, hcond, if_true, hfcE, Bool.false_eq_true, if_false]
      obtain ⟨k, hk, hval⟩ := ih (fc ++ ' ' :: w) (wc + 1) (by simp)
      refine ⟨k + 1, by simpa using Nat.succ_le_succ hk, ?_⟩
      rw [hstep, hval]
      simp [pj, List.append_assoc]
    · have hstep : first_chunk_aux max (w :: t) fc wc = fc := by
        simp only [first_chunk_aux, hcond, Bool.false_eq_true, if_false]
      exact ⟨0, by simp, by simp [hstep, pj]⟩

/-- The first chunk built by split_text_for_immediate_streaming from clean
words is either empty or the single-space join of a non-empty prefix of
the words. -/
theorem first_chunk_aux_top (max : Nat) (ws : List (List Char))
    (h : cleanWords ws) :
    first_chunk_aux max ws [] 0 = [] ∨
    ∃ m, 1 ≤ m ∧ m ≤ ws.length ∧
      first_chunk_aux max ws [] 0 = sJoin (ws.take m) := by
  cases ws with
  | nil => exact Or.inl rfl
  | cons w t =>
    have hw : w ≠ [] := (h w (List.mem_cons_self w t)).1
    by_cases hcond : (([] : List Char).length + 1 + w.length ≤ max && 0 < 100) = true
    · have hstep : first_chunk_aux max (w :: t) [] 0
          = first_chunk_aux max t w 1 := by
        simp only [first_chunk_aux, hcond, if_true, List.isEmpty_nil]
      obtain ⟨k, hk, hval⟩ := first_chunk_aux_extend max t w 1 hw
      refine Or.inr ⟨k + 1, by omega, by simpa using Nat.succ_le_succ hk, ?_⟩
      rw [hstep, hval]
      simp [sJoin]
    · exact Or.inl (by simp only [first_chunk_aux, hcond, Bool.false_eq_true, if_false])

/-- Dropping the first chunk's characters from the joined text leaves the
space-prefixed join of the remaining words. -/
theorem sJoin_drop_take (ws : List (List Char)) (m : Nat) (h : cleanWords ws)
    (hm1 : 1 ≤ m) (hws : ws ≠ []) :
    (sJoin ws).drop (sJoin (ws.take m)).length = pj (ws.drop m) := by
  have htn : ws.take m ≠ [] := by
    cases ws with
    | nil => exact absurd rfl hws
    | cons w t =>
      cases m with
      | zero => omega
      | succ k => simp
  conv_lhs => rw [show sJoin ws = sJoin (ws.take m ++ ws.drop m) by
    rw [List.take_append_drop]]
  rw [sJoin_append_left (ws.take m) (ws.drop m) htn]
  exact List.drop_left (sJoin (ws.take m)) (pj (ws.drop m))

/-- Cleanness passes to prefixes. -/
theorem cleanWords_take (ws : List (List Char)) (m : Nat) (h : cleanWords ws) :
    cleanWords (ws.take m) :=
  fun w hw => h w (List.take_subset m ws hw)

/-- Cleanness passes to suffixes. -/
theorem cleanWords_drop (ws : List (List Char)) (m : Nat) (h : cleanWords ws) :
    cleanWords (ws.drop m) :=
  fun w hw => h w (List.drop_subset m ws hw)

/-- Unfolding of split_text_for_immediate_streaming when the text has
words. -/
theorem split_imm_unfold (t : List Char) (max : Nat)
    (hw : (pySplit t).isEmpty = false) :
    split_text_for_immediate_streaming t max
      = (if (first_chunk_aux max (pySplit t) [] 0).isEmpty then
           split_text_fast t max
         else
           if (pyStrip (t.drop (first_chunk_aux max (pySplit t) [] 0).length)).isEmpty then
             [pyStrip (first_chunk_aux max (pySplit t) [] 0)]
           else
             pyStrip (first_chunk_aux max (pySplit t) [] 0) ::
               split_text_fast
                 (pyStrip (t.drop (first_chunk_aux max (pySplit t) [] 0).length)) max) := by
  simp only [split_text_for_immediate_streaming, hw, Bool.false_eq_true, if_false]

/-- C4 (amended): for every size threshold and every text whose words are
separated by single spaces with no leading or trailing whitespace (text =
sJoin ws for clean words ws), the chunker never splits inside a word —
the word sequences of the chunks concatenate to the original word
sequence — and the chunks joined back with single separating spaces equal
the original text.  (The literal concatenation of the claim fails because
the separating spaces are dropped; see the counterexample.) -/
theorem C4_amended_word_safe_chunking (ws : List (List Char)) (max : Nat)
    (h : cleanWords ws) :
    ((split_text_for_immediate_streaming (sJoin ws) max).map pySplit).flatten = ws ∧
    sJoin (split_text_for_immediate_streaming (sJoin ws) max) = sJoin ws := by
  have hsplit : pySplit (sJoin ws) = ws := pySplit_sJoin ws h
  by_cases hws : ws = []
  · subst hws
    exact ⟨rfl, rfl⟩
  · have hwsE : (pySplit (sJoin ws)).isEmpty = false := by
      rw [hsplit]
      cases ws with
      | nil => exact absurd rfl hws
      | cons w t => rfl
    have hunfold := split_imm_unfold (sJoin ws) max hwsE
    rw [hsplit] at hunfold
    have hfromParts : ∀ parts : List (List (List Char)),
        (∀ g ∈ parts, g ≠ [] ∧ cleanWords g) → parts.flatten = ws →
        ((parts.map sJoin).map pySplit).flatten = ws ∧
        sJoin (parts.map sJoin) = sJoin ws := by
      intro parts h3 h2
      constructor
      · have hmaps : (parts.map sJoin).map pySplit = parts := by
          rw [List.map_map]
          have hcg : ∀ g ∈ parts, (pySplit ∘ sJoin) g = id g :=
            fun g hg => pySplit_sJoin g ((h3 g hg).2)
          rw [List.map_congr_left hcg, List.map_id]
        rw [hmaps, h2]
      · rw [sJoin_map_sJoin parts (fun g hg => (h3 g hg).1), h2]
    rcases first_chunk_aux_top max ws h with hfc | ⟨m, hm1, hm2, hfc⟩
    · -- no first chunk: everything goes through split_text_fast
      have hchunks : split_text_for_immediate_streaming (sJoin ws) max
          = split_text_fast_aux max ws [] := by
        rw [hunfold, hfc]
        simp only [List.isEmpty_nil, if_true, split_text_fast, hsplit]
      obtain ⟨parts, h1, h2, h3⟩ :=
        split_text_fast_aux_spec max ws [] h (by intro x hx; simp at hx)
      rw [show sJoin ([] : List (List Char)) = [] from rfl] at h1
      rw [hchunks, h1]
      exact hfromParts parts h3 (by simpa using h2)
    · -- first chunk is the join of the first m words
      have htn : ws.take m ≠ [] := by
        cases ws with
        | nil => exact absurd rfl hws
        | cons w t =>
          cases m with
          | zero => omega
          | succ k => simp
      have hcleanTake := cleanWords_take ws m h
      have hcleanDrop := cleanWords_drop ws m h
      have hfcE : (first_chunk_aux max ws [] 0).isEmpty = false := by
        rw [hfc]
        exact sJoin_isEmpty_false _ hcleanTake htn
      have hrem : pyStrip ((sJoin ws).drop (first_chunk_aux max ws [] 0).length)
          = sJoin (ws.drop m) := by
        rw [hfc, sJoin_drop_take ws m h hm1 hws, pyStrip_pj _ hcleanDrop]
      by_cases hdm : ws.drop m = []
      · have htake : ws.take m = ws := by
          have hlen : ws.length ≤ m := by
            have := List.drop_eq_nil_iff.mp hdm
            omega
          exact List.take_of_length_le hlen
        have hremE : (pyStrip ((sJoin ws).drop (first_chunk_aux max ws [] 0).length)).isEmpty
            = true := by
          rw [hrem, hdm]
          rfl
        have hchunks : split_text_for_immediate_streaming (sJoin ws) max
            = [sJoin ws] := by
          rw [hunfold]
          simp only [hfcE, Bool.false_eq_true, if_false, hremE, if_true]
          rw [hfc, pyStrip_sJoin _ hcleanTake, htake]
        rw [hchunks]
        constructor
        · simp [hsplit]
        · simp [sJoin, pj]
      · have hremE : (pyStrip ((sJoin ws).drop (first_chunk_aux max ws [] 0).length)).isEmpty
            = false := by
          rw [hrem]
          exact sJoin_isEmpty_false _ hcleanDrop hdm
        obtain ⟨parts, h1, h2, h3⟩ :=
          split_text_fast_aux_spec max (ws.drop m) [] hcleanDrop (by intro x hx; simp at hx)
        rw [show sJoin ([] : List (List Char)) = [] from rfl] at h1
        have hchunks : split_text_for_immediate_streaming (sJoin ws) max
            = (ws.take m :: parts).map sJoin := by
          rw [hunfold]
          simp only [hfcE, Bool.false_eq_true, if_false, hremE, if_true]
          rw [hrem, hfc, pyStrip_sJoin _ hcleanTake]
          rw [show split_text_fast (sJoin (ws.drop m)) max
              = split_text_fast_aux max (pySplit (sJoin (ws.drop m))) [] from rfl]
          rw [pySplit_sJoin _ hcleanDrop, h1, List.map_cons]
        rw [hchunks]
        refine hfromParts (ws.take m :: parts) ?_ ?_
        · intro g hg
          rcases List.mem_cons.mp hg with h4 | h4
          · subst h4
            exact ⟨htn, hcleanTake⟩
          · exact h3 g h4
        · rw [List.flatten_cons, h2]
          simp

/-- C4 counterexample: on the text "aa  bb" (two separating spaces) with
threshold 10 the chunker returns the chunks "aa bb" and "b": the
concatenation of the chunk texts is "aa bbb", not the original text, and
the second chunk "b" is a fragment cut out of the word "bb" — the
word sequence of the chunks is aa, bb, b instead of aa, bb.  The slice
text[len(first_chunk):] (sarvam_service.py 440) measures the rebuilt
single-space first chunk against the original text, so irregular
whitespace shifts the cut into a word; even with single spaces the
dropped separators make the literal concatenation differ. -/
theorem C4_counterexample_word_cut :
    split_text_for_immediate_streaming [ 'a', 'a', ' ', ' ', 'b', 'b' ] 10
      = [[ 'a', 'a', ' ', 'b', 'b' ], [ 'b' ]] ∧
    (split_text_for_immediate_streaming
        [ 'a', 'a', ' ', ' ', 'b', 'b' ] 10).flatten
      ≠ [ 'a', 'a', ' ', ' ', 'b', 'b' ] ∧
    ((split_text_for_immediate_streaming
        [ 'a', 'a', ' ', ' ', 'b', 'b' ] 10).map pySplit).flatten
      ≠ pySplit [ 'a', 'a', ' ', ' ', 'b', 'b' ] := by
  decide

/-- C4 amended witness: on the single-space text "hi you" with threshold 3
the chunks are word-safe and join back to the original. -/
theorem C4_amended_word_safe_chunking_witness :
    ((split_text_for_immediate_streaming
        (sJoin [[ 'h', 'i' ], [ 'y', 'o', 'u' ]]) 3).map pySplit).flatten
      = [[ 'h', 'i' ], [ 'y', 'o', 'u' ]] :=
  (C4_amended_word_safe_chunking [[ 'h', 'i' ], [ 'y', 'o', 'u' ]] 3
    (by unfold cleanWords cleanWord; decide)).1
